import Mathlib

/-!
Verification of the MiniKanbanApp backend services against its specification.

The embedding below is a shallow model of the NestJS/Mongoose backend:
  - src/backend/src/tasks/* and the tasks service (TasksService) with its
    create / findAll / findOne / update / remove / getProjectSummary /
    exportToCsv operations;
  - src/backend/src/projects/projects.service.ts (ProjectsService) with
    findOne / remove / addMembers.

Modelling conventions:
  - Mongo ObjectIds are Lean Strings (so member.toString() === userId is
    plain string equality, and JS truthiness of an id string is "not empty").
  - Dates are ISO-8601 UTC strings compared lexicographically, which agrees
    with chronological order for that fixed format; Date.toISOString is the
    identity on this representation.
  - The document store is a triple of lists (users, projects, tasks);
    Model.findById is List.find? on the id field, countDocuments is
    List.filter + length, findByIdAndDelete removes the first id match.
  - A thrown NotFoundException / ForbiddenException is Except.error with the
    corresponding HTTP status; a JS TypeError (e.g. reading .members of a
    null populated project) is SvcError.internal (HTTP 500).
  - Mutating operations return the result together with the store after the
    call, so that frame properties (state unchanged on error) are statable.
-/

namespace MiniKanban

abbrev Id := String

/-- ISO-8601 UTC date-time string; lexicographic order matches time order. -/
abbrev Date := String

/-- UserRole enum from src/backend/src/common/enums (values admin, member). -/
inductive UserRole where
  | admin
  | member
deriving DecidableEq, Repr

/-- TaskStatus enum (string values todo, in_progress, done). -/
inductive TaskStatus where
  | todo
  | in_progress
  | done
deriving DecidableEq, Repr

/-- TaskPriority enum (string values low, medium, high). -/
inductive TaskPriority where
  | low
  | medium
  | high
deriving DecidableEq, Repr

/-- String value of a TaskStatus, as stored in Mongo and printed to CSV. -/
def TaskStatus.str : TaskStatus → String
  | .todo => ("todo")
  | .in_progress => ("in_progress")
  | .done => ("done")

/-- String value of a TaskPriority. -/
def TaskPriority.str : TaskPriority → String
  | .low => ("low")
  | .medium => ("medium")
  | .high => ("high")

/-- User document (schemas/user.schema.ts): name, email, role. -/
structure User where
  id : Id
  name : String
  email : String
  role : UserRole
deriving DecidableEq, Repr

/-- Project document (projects/schemas/project.schema.ts). -/
structure Project where
  id : Id
  name : String
  key : String
  members : List Id
  createdBy : Id
  createdAt : Date
  updatedAt : Date
deriving DecidableEq, Repr

/-- Task document (tasks/schemas/task.schema.ts); description, assignee and
dueDate are optional in the schema. -/
structure Task where
  id : Id
  projectId : Id
  title : String
  description : Option String
  status : TaskStatus
  priority : TaskPriority
  assignee : Option Id
  dueDate : Option Date
  createdBy : Id
  createdAt : Date
  updatedAt : Date
deriving DecidableEq, Repr

/-- The document store backing the three Mongoose models. -/
structure Store where
  users : List User
  projects : List Project
  tasks : List Task
deriving DecidableEq, Repr

/-- Errors surfaced by the services: NotFoundException (404),
ForbiddenException (403), and an uncaught TypeError (500). -/
inductive SvcError where
  | notFound
  | forbidden
  | internal
deriving DecidableEq, Repr

/-- projectModel.findById. -/
def findProject (s : Store) (id : Id) : Option Project :=
  s.projects.find? (fun p => p.id == id)

/-- taskModel.findById. -/
def findTask (s : Store) (id : Id) : Option Task :=
  s.tasks.find? (fun t => t.id == id)

/-- userModel lookup used by populate on assignee / createdBy. -/
def findUser (s : Store) (id : Id) : Option User :=
  s.users.find? (fun u => u.id == id)

/-- taskModel.exists with filter on projectId and assignee, used by the
access checks: does the user have at least one task assigned in the
project. -/
def hasTasksInProject (s : Store) (projectId userId : Id) : Bool :=
  s.tasks.any (fun t => t.projectId == projectId && t.assignee == some userId)

/-- JS truthiness of an optional string field of a DTO: undefined and the
empty string are falsy. -/
def strTruthy : Option String → Bool
  | none => false
  | some s => !s.isEmpty

/-- Removes the first document whose id matches (findByIdAndDelete; _id is
unique in a Mongo collection). -/
def erasedById (p : α → Bool) : List α → List α
  | [] => []
  | x :: xs => if p x then xs else x :: erasedById p xs

/-- CreateTaskDto (tasks/dto/create-task.dto.ts): title required, the rest
optional. -/
structure CreateTaskDto where
  title : String
  description : Option String := none
  status : Option TaskStatus := none
  priority : Option TaskPriority := none
  assignee : Option Id := none
  dueDate : Option Date := none
deriving DecidableEq, Repr

/-- UpdateTaskDto (tasks/dto/update-task.dto.ts): every field optional. -/
structure UpdateTaskDto where
  title : Option String := none
  description : Option String := none
  status : Option TaskStatus := none
  priority : Option TaskPriority := none
  assignee : Option Id := none
  dueDate : Option Date := none
deriving DecidableEq, Repr

/-- QueryTasksDto (tasks/dto/query-tasks.dto.ts). page and limit are
IsNumberString query parameters; they are modelled as the parsed
non-negative number when present. -/
structure QueryTasksDto where
  status : Option TaskStatus := none
  assignee : Option Id := none
  q : Option String := none
  priority : Option TaskPriority := none
  dueFrom : Option Date := none
  dueTo : Option Date := none
  page : Option Nat := none
  limit : Option Nat := none
deriving DecidableEq, Repr

/-- parseInt(field) short-circuited with a default: an absent parameter
(parseInt gives NaN) and the value 0 are both JS-falsy and fall back to the
default, as in parseInt(query.page) and parseInt(query.limit) in
TasksService.findAll. -/
def parseIntOr (d : Nat) : Option Nat → Nat
  | none => d
  | some n => if n = 0 then d else n

/-- Models the Mongo text-index match dispatched by filter.q (a text index
on title and description): some whitespace-separated word of the title or
description equals the search string. The exact Mongo stemming is external
to the repository; only its type (a fixed predicate over the task) matters
to the claims. -/
def textMatches (q : String) (t : Task) : Bool :=
  ((t.title.splitOn (" ")).contains q)
    || (((t.description.getD ("")).splitOn (" ")).contains q)

/-- The Mongo filter object built in TasksService.findAll, as a predicate:
projectId always; status / assignee / priority exact match when present;
dueDate range when dueFrom or dueTo is present (a document without dueDate
matches no dueDate constraint); text search when q is present. -/
def matchesFilter (projectId : Id) (query : QueryTasksDto) (t : Task) : Bool :=
  t.projectId == projectId
    && (match query.status with
        | none => true
        | some st => t.status == st)
    && (match query.assignee with
        | none => true
        | some a => t.assignee == some a)
    && (match query.priority with
        | none => true
        | some pr => t.priority == pr)
    && (match query.dueFrom, query.dueTo with
        | none, none => true
        | lo, hi =>
          match t.dueDate with
          | none => false
          | some d =>
            (match lo with
             | none => true
             | some l => decide (l ≤ d))
              && (match hi with
                  | none => true
                  | some h => decide (d ≤ h)))
    && (match query.q with
        | none => true
        | some qs => textMatches qs t)

/-- Insert into a list already sorted by createdAt descending (helper of the
model of .sort with createdAt: -1). -/
def insertByCreatedAtDesc (t : Task) : List Task → List Task
  | [] => [t]
  | u :: us =>
    if u.createdAt ≤ t.createdAt then t :: u :: us
    else u :: insertByCreatedAtDesc t us

/-- Model of the Mongo sort createdAt: -1 used by findAll and exportToCsv:
a permutation of the input sorted by createdAt descending. -/
def sortByCreatedAtDesc : List Task → List Task
  | [] => []
  | t :: ts => insertByCreatedAtDesc t (sortByCreatedAtDesc ts)

/-- The pagination object returned by TasksService.findAll. -/
structure Pagination where
  page : Nat
  limit : Nat
  total : Nat
  pages : Nat
deriving DecidableEq, Repr

/-- Return shape of TasksService.findAll. -/
structure TaskListResult where
  tasks : List Task
  pagination : Pagination
deriving DecidableEq, Repr

/-- Math.ceil(total / limit) on naturals, for limit > 0. -/
def ceilDiv (total limit : Nat) : Nat :=
  (total + limit - 1) / limit

namespace TasksService

/-- TasksService.create (part_002 lines 20-52): 404 when the project is
missing; a non-admin needs membership or an assigned task in the project,
else 403; otherwise the new task (server id newId, timestamps now) is
saved. Returns the call result together with the store after the call. -/
def create (s : Store) (projectId : Id) (dto : CreateTaskDto)
    (userId : Id) (userRole : UserRole) (newId : Id) (now : Date) :
    Except SvcError Task × Store :=
  match findProject s projectId with
  | none => (.error .notFound, s)
  | some project =>
    if userRole ≠ .admin
        ∧ project.members.contains userId = false
        ∧ hasTasksInProject s projectId userId = false then
      (.error .forbidden, s)
    else
      let task : Task :=
        { id := newId
          projectId := projectId
          title := dto.title
          description := dto.description
          status := dto.status.getD .todo
          priority := dto.priority.getD .medium
          assignee := if strTruthy dto.assignee then dto.assignee else none
          dueDate := if strTruthy dto.dueDate then dto.dueDate else none
          createdBy := userId
          createdAt := now
          updatedAt := now }
      (.ok task, { s with tasks := s.tasks ++ [task] })

/-- TasksService.findAll (part_002 lines 54-131): 404 when the project is
missing; non-admin access requires membership or an assigned task in the
project; then filter, sort by createdAt descending, paginate with
parseInt(page) or 1 and parseInt(limit) or 10, and report
total / Math.ceil(total/limit). -/
def findAll (s : Store) (projectId : Id) (query : QueryTasksDto)
    (userId : Id) (userRole : UserRole) :
    Except SvcError TaskListResult :=
  match findProject s projectId with
  | none => .error .notFound
  | some project =>
    if userRole ≠ .admin
        ∧ project.members.contains userId = false
        ∧ hasTasksInProject s projectId userId = false then
      .error .forbidden
    else
      let page := parseIntOr 1 query.page
      let limit := parseIntOr 10 query.limit
      let skip := (page - 1) * limit
      let matching := s.tasks.filter (matchesFilter projectId query)
      let total := matching.length
      .ok { tasks := ((sortByCreatedAtDesc matching).drop skip).take limit
            pagination :=
              { page := page
                limit := limit
                total := total
                pages := ceilDiv total limit } }

/-- TasksService.findOne (part_002 lines 133-152): 404 when the task is
missing; a non-admin caller must appear in the member list of the task
project (no task-assignee clause here); reading .members of a null
populated project would raise a TypeError (internal). -/
def findOne (s : Store) (id userId : Id) (userRole : UserRole) :
    Except SvcError Task :=
  match findTask s id with
  | none => .error .notFound
  | some task =>
    if userRole = .admin then .ok task
    else
      match findProject s task.projectId with
      | none => .error .internal
      | some project =>
        if project.members.contains userId = true then .ok task
        else .error .forbidden

/-- The merged document written by findByIdAndUpdate in TasksService.update
(part_002 lines 172-181): the DTO fields overwrite when present, except that
a falsy (absent or empty) assignee or dueDate keeps the stored value;
updatedAt is set to now. -/
def applyUpdate (t : Task) (dto : UpdateTaskDto) (now : Date) : Task :=
  { t with
    title := dto.title.getD t.title
    description :=
      match dto.description with
      | none => t.description
      | some d => some d
    status := dto.status.getD t.status
    priority := dto.priority.getD t.priority
    assignee := if strTruthy dto.assignee then dto.assignee else t.assignee
    dueDate := if strTruthy dto.dueDate then dto.dueDate else t.dueDate
    updatedAt := now }

/-- TasksService.update (part_002 lines 154-184): 404 when the task is
missing; a non-admin must be in the member list of the task project and be
the assignee of the task, else 403; reading .members of a null populated
project raises a TypeError (internal); otherwise the merged document is
written. -/
def update (s : Store) (id : Id) (dto : UpdateTaskDto)
    (userId : Id) (userRole : UserRole) (now : Date) :
    Except SvcError Task × Store :=
  match findTask s id with
  | none => (.error .notFound, s)
  | some task =>
    if userRole = .admin then
      let t := applyUpdate task dto now
      (.ok t, { s with tasks := s.tasks.map (fun u => if u.id = id then t else u) })
    else
      match findProject s task.projectId with
      | none => (.error .internal, s)
      | some project =>
        if project.members.contains userId = false then (.error .forbidden, s)
        else if task.assignee ≠ some userId then (.error .forbidden, s)
        else
          let t := applyUpdate task dto now
          (.ok t, { s with tasks := s.tasks.map (fun u => if u.id = id then t else u) })

/-- TasksService.remove (part_002 lines 186-195): the role is checked before
anything is looked up, so a non-admin gets 403 even for a missing task; for
an admin, a missing task gives 404, otherwise the task is deleted. -/
def remove (s : Store) (id : Id) (userRole : UserRole) :
    Except SvcError Unit × Store :=
  if userRole ≠ .admin then (.error .forbidden, s)
  else
    match findTask s id with
    | none => (.error .notFound, s)
    | some _ => (.ok (), { s with tasks := erasedById (fun t => t.id == id) s.tasks })

end TasksService

/-- Return shape of TasksService.getProjectSummary. -/
structure ProjectSummary where
  total : Nat
  todo : Nat
  inProgress : Nat
  done : Nat
  overdue : Nat
  completionRate : Nat
deriving DecidableEq, Repr

/-- Math.round((done / total) * 100) computed exactly: the nearest integer
to 100*done/total, halves rounded up, i.e. floor(100*done/total + 1/2). -/
def roundRate (done total : Nat) : Nat :=
  (200 * done + total) / (2 * total)

namespace TasksService

/-- TasksService.getProjectSummary (part_002 lines 197-242): 404 when the
project is missing; a non-admin must be in the member list (task assignees
are deliberately excluded from the dashboard); then five countDocuments
filters and the guarded completion rate. -/
def getProjectSummary (s : Store) (projectId userId : Id)
    (userRole : UserRole) (now : Date) :
    Except SvcError ProjectSummary :=
  match findProject s projectId with
  | none => .error .notFound
  | some project =>
    if userRole ≠ .admin ∧ project.members.contains userId = false then
      .error .forbidden
    else
      let inProj := fun (t : Task) => t.projectId == projectId
      let totalTasks := (s.tasks.filter inProj).length
      let todoTasks := (s.tasks.filter (fun t => inProj t && t.status == .todo)).length
      let inProgressTasks :=
        (s.tasks.filter (fun t => inProj t && t.status == .in_progress)).length
      let doneTasks := (s.tasks.filter (fun t => inProj t && t.status == .done)).length
      let overdueTasks :=
        (s.tasks.filter (fun t =>
          inProj t
            && (match t.dueDate with
                | none => false
                | some d => decide (d < now))
            && t.status != .done)).length
      .ok { total := totalTasks
            todo := todoTasks
            inProgress := inProgressTasks
            done := doneTasks
            overdue := overdueTasks
            completionRate :=
              if totalTasks > 0 then roundRate doneTasks totalTasks else 0 }

end TasksService

/-- The HTTP response assembled by TasksService.exportToCsv through
res.setHeader and res.send. -/
structure CsvResponse where
  contentType : String
  contentDisposition : String
  body : String
deriving DecidableEq, Repr

/-- Wraps a CSV field in double quotes, as the template literal in
exportToCsv does. -/
def quoteField (f : String) : String :=
  ("\"") ++ f ++ ("\"")

/-- The fixed CSV header line of exportToCsv. -/
def csvHeader : String :=
  ("ID,Title,Description,Status,Priority,Assignee,Assignee Email,Due Date,Created By,Created At,Updated At")

/-- The eleven field values of one CSV data row, in column order. The
assignee columns come from the populated user document (empty when the task
has no assignee); description and dueDate fall back to the empty string;
dates print via toISOString, the identity on this representation. -/
def csvFields (s : Store) (t : Task) : List String :=
  let assigneeUser := t.assignee.bind (findUser s)
  [ t.id
  , t.title
  , t.description.getD ("")
  , t.status.str
  , t.priority.str
  , (assigneeUser.map User.name).getD ("")
  , (assigneeUser.map User.email).getD ("")
  , t.dueDate.getD ("")
  , ((findUser s t.createdBy).map User.name).getD ("")
  , t.createdAt
  , t.updatedAt ]

/-- One CSV data row: each field double-quoted, joined with commas. -/
def csvRow (s : Store) (t : Task) : String :=
  String.intercalate (",") ((csvFields s t).map quoteField)

/-- All lines of the CSV document for a project: the fixed header, then one
row per task of the project (every task with that projectId, no other
filter), in createdAt-descending order. -/
def csvLines (s : Store) (projectId : Id) : List String :=
  csvHeader ::
    (sortByCreatedAtDesc (s.tasks.filter (fun t => t.projectId == projectId))).map
      (csvRow s)

/-- The attachment file name: the project name with whitespace runs replaced
by underscores, then _tasks_, the date part of now, and .csv. -/
def csvFilename (projectName : String) (now : Date) : String :=
  String.intercalate ("_") ((projectName.splitOn (" ")).filter (fun w => !w.isEmpty))
    ++ ("_tasks_") ++ ((now.splitOn ("T")).headD now) ++ (".csv")

namespace TasksService

/-- TasksService.exportToCsv (part_002 lines 244-297): 404 when the project
is missing; non-admin access requires membership or an assigned task in the
project; then the full task list of the project is rendered to CSV and sent
with the text/csv and attachment headers. -/
def exportToCsv (s : Store) (projectId userId : Id)
    (userRole : UserRole) (now : Date) :
    Except SvcError CsvResponse :=
  match findProject s projectId with
  | none => .error .notFound
  | some project =>
    if userRole ≠ .admin
        ∧ project.members.contains userId = false
        ∧ hasTasksInProject s projectId userId = false then
      .error .forbidden
    else
      .ok { contentType := ("text/csv")
            contentDisposition :=
              ("attachment; filename=\"")
                ++ csvFilename project.name now ++ ("\"")
            body := String.intercalate ("\n") (csvLines s projectId) }

end TasksService

namespace ProjectsService

/-- ProjectsService.findOne (projects.service.ts lines 69-105): 404 when the
project is missing; a non-admin must be in the member list or have a task
assigned in the project, else 403. -/
def findOne (s : Store) (id userId : Id) (userRole : UserRole) :
    Except SvcError Project :=
  match findProject s id with
  | none => .error .notFound
  | some project =>
    if userRole ≠ .admin
        ∧ project.members.contains userId = false
        ∧ hasTasksInProject s project.id userId = false then
      .error .forbidden
    else .ok project

/-- ProjectsService.remove (projects.service.ts lines 136-145): the role is
checked before the lookup, so a non-admin gets 403 even for a missing
project; for an admin, a missing project gives 404, otherwise only the
project document is deleted (tasks are untouched). -/
def remove (s : Store) (id : Id) (userRole : UserRole) :
    Except SvcError Unit × Store :=
  if userRole ≠ .admin then (.error .forbidden, s)
  else
    match findProject s id with
    | none => (.error .notFound, s)
    | some _ =>
      (.ok (), { s with projects := erasedById (fun p => p.id == id) s.projects })

/-- $addToSet with $each: appends each id not already present, in order. -/
def addToSet (members : List Id) (newIds : List Id) : List Id :=
  newIds.foldl (fun acc u => if acc.contains u then acc else acc ++ [u]) members

/-- ProjectsService.addMembers (projects.service.ts lines 147-168): the role
is checked before the lookup, so a non-admin gets 403 even for a missing
project; for an admin, a missing project gives 404, otherwise the given
user ids are added to the member set. -/
def addMembers (s : Store) (id : Id) (userIds : List Id) (userRole : UserRole) :
    Except SvcError Project × Store :=
  if userRole ≠ .admin then (.error .forbidden, s)
  else
    match findProject s id with
    | none => (.error .notFound, s)
    | some project =>
      let updated := { project with members := addToSet project.members userIds }
      (.ok updated,
        { s with projects :=
            s.projects.map (fun p => if p.id == id then updated else p) })

end ProjectsService

/-- The access rule as worded in the spec (section 4), stated separately
from the service code so the code can be compared against it: a caller may
read/write tasks of a project if the caller is an admin, or is listed in
the member set of the project, or already has at least one task assigned in
that project. -/
def SpecTaskAccess (s : Store) (p : Project) (userId : Id) (userRole : UserRole) : Prop :=
  userRole = .admin ∨ p.members.contains userId = true
    ∨ hasTasksInProject s p.id userId = true

instance (s : Store) (p : Project) (userId : Id) (userRole : UserRole) :
    Decidable (SpecTaskAccess s p userId userRole) := by
  unfold SpecTaskAccess
  infer_instance

/-- A successful findProject returns a project carrying the requested id. -/
theorem findProject_id {s : Store} {i : Id} {p : Project}
    (hp : findProject s i = some p) : p.id = i := by
  simp only [findProject] at hp
  have h := List.find?_some hp
  simpa using h

/-- The guard proposition shared by create, findAll and exportToCsv is the
negation of the spec access predicate. -/
theorem access_guard_iff (s : Store) (p : Project) (userId : Id) (userRole : UserRole) :
    (userRole ≠ UserRole.admin
      ∧ p.members.contains userId = false
      ∧ hasTasksInProject s p.id userId = false)
      ↔ ¬ SpecTaskAccess s p userId userRole := by
  unfold SpecTaskAccess
  cases hm : p.members.contains userId <;>
    cases hh : hasTasksInProject s p.id userId <;>
      simp

/-- parseIntOr agrees with getD on positive parsed values. -/
theorem parseIntOr_pos (d : Nat) (o : Option Nat) (h : ∀ n, o = some n → 0 < n) :
    parseIntOr d o = o.getD d := by
  cases o with
  | none => rfl
  | some n =>
    have hn := h n rfl
    simp only [parseIntOr, Option.getD_some]
    rw [if_neg (by omega)]

/-- parseIntOr with a positive default is positive. -/
theorem parseIntOr_pos_of {d : Nat} (hd : 0 < d) (o : Option Nat) :
    0 < parseIntOr d o := by
  cases o with
  | none => exact hd
  | some n =>
    simp only [parseIntOr]
    split
    · exact hd
    · rename_i h
      omega

/-- ceilDiv is the least multiple cover: a ≤ ceilDiv a b * b < a + b. -/
theorem ceilDiv_bounds (a b : Nat) (hb : 0 < b) :
    a ≤ ceilDiv a b * b ∧ ceilDiv a b * b < a + b := by
  unfold ceilDiv
  have h1 : (a + b - 1) / b * b ≤ a + b - 1 := Nat.div_mul_le_self _ _
  have h2 : a + b - 1 < (a + b - 1) / b * b + b := Nat.lt_div_mul_add hb
  generalize (a + b - 1) / b * b = k at h1 h2 ⊢
  omega

/-- Inserting into the sorted list adds one element. -/
theorem length_insertByCreatedAtDesc (t : Task) (l : List Task) :
    (insertByCreatedAtDesc t l).length = l.length + 1 := by
  induction l with
  | nil => rfl
  | cons u us ih =>
    simp only [insertByCreatedAtDesc]
    split <;> simp [ih]

/-- The createdAt sort preserves length. -/
theorem length_sortByCreatedAtDesc (l : List Task) :
    (sortByCreatedAtDesc l).length = l.length := by
  induction l with
  | nil => rfl
  | cons t ts ih =>
    simp [sortByCreatedAtDesc, length_insertByCreatedAtDesc, ih]

/-- The createdAt sort is a permutation of its input. -/
theorem perm_sortByCreatedAtDesc (l : List Task) :
    (sortByCreatedAtDesc l).Perm l := by
  induction l with
  | nil => exact List.Perm.refl _
  | cons t ts ih =>
    have hins : ∀ (u : Task) (m : List Task), (insertByCreatedAtDesc u m).Perm (u :: m) := by
      intro u m
      induction m with
      | nil => exact List.Perm.refl _
      | cons v vs ihm =>
        simp only [insertByCreatedAtDesc]
        split
        · exact List.Perm.refl _
        · exact (ihm.cons v).trans (List.Perm.swap u v vs)
    exact (hins t (sortByCreatedAtDesc ts)).trans (ih.cons t)

/-- A fixed date literal used by the concrete fixtures. -/
def d0 : Date := "2024-01-01T00:00:00.000Z"

/-- Fixture: a project with an empty member list. -/
def cexProject : Project :=
  { id := "p1", name := "Kanban Board", key := "KAN", members := []
    createdBy := "a1", createdAt := d0, updatedAt := d0 }

/-- Fixture: a task of cexProject assigned to user u1, who is not in the
member list. -/
def cexTask : Task :=
  { id := "t1", projectId := "p1", title := "Fix login", description := none
    status := .todo, priority := .medium, assignee := some "u1", dueDate := none
    createdBy := "a1", createdAt := d0, updatedAt := d0 }

/-- Fixture store for the access-control counterexample. -/
def cexStore : Store :=
  { users := [], projects := [cexProject], tasks := [cexTask] }

/-- C1 counterexample: user u1 is the assignee of a task of project p1, so
the spec access predicate admits u1, yet reading that single task
(GET /tasks/:id) returns 403, refuting the claimed if-and-only-if for the
read-a-single-task operation. -/
theorem C1_counterexample :
    SpecTaskAccess cexStore cexProject ("u1") .member
    ∧ TasksService.findOne cexStore ("t1") ("u1") .member = .error .forbidden := by
  constructor
  · decide
  · rfl

/-- C1 (amended): for creating a task, listing tasks, exporting tasks and
viewing the project, the access check passes if and only if the caller is
an admin, a listed member, or the assignee of some task of the project, and
a denied create leaves the store unchanged; but reading a single task and
the project summary accept only an admin or a listed member, so the
task-assignee clause is not honoured there. -/
theorem C1_access_amended (s : Store) (projectId userId tid : Id)
    (userRole : UserRole) (p : Project) (task : Task)
    (dto : CreateTaskDto) (q : QueryTasksDto) (newId : Id) (now : Date)
    (hp : findProject s projectId = some p)
    (ht : findTask s tid = some task)
    (htp : task.projectId = projectId) :
    (¬ SpecTaskAccess s p userId userRole ↔
      TasksService.create s projectId dto userId userRole newId now
        = (.error .forbidden, s))
    ∧ (¬ SpecTaskAccess s p userId userRole ↔
      TasksService.findAll s projectId q userId userRole = .error .forbidden)
    ∧ (¬ SpecTaskAccess s p userId userRole ↔
      TasksService.exportToCsv s projectId userId userRole now = .error .forbidden)
    ∧ (¬ SpecTaskAccess s p userId userRole ↔
      ProjectsService.findOne s projectId userId userRole = .error .forbidden)
    ∧ (TasksService.findOne s tid userId userRole = .error .forbidden ↔
      (userRole ≠ .admin ∧ p.members.contains userId = false))
    ∧ (TasksService.getProjectSummary s projectId userId userRole now
        = .error .forbidden ↔
      (userRole ≠ .admin ∧ p.members.contains userId = false)) := by
  have hpid : p.id = projectId := findProject_id hp
  subst hpid
  refine ⟨?_, ?_, ?_, ?_, ?_, ?_⟩ <;>
    simp only [SpecTaskAccess, TasksService.create, TasksService.findAll,
      TasksService.exportToCsv, TasksService.findOne,
      TasksService.getProjectSummary, ProjectsService.findOne, htp, hp, ht] <;>
    cases userRole <;>
      cases hm : p.members.contains userId <;>
        cases hh : hasTasksInProject s p.id userId <;>
          simp_all

/-- Witness for C1_access_amended: in the concrete store, user w1 (not a
member, no assigned task) is denied task creation on project p1 and the
store is unchanged. -/
theorem C1_access_amended_witness :
    TasksService.create cexStore ("p1") { title := ("T") } ("w1") .member ("t9") d0
      = (.error .forbidden, cexStore) := by
  have h := C1_access_amended cexStore ("p1") ("w1") ("t1") .member cexProject cexTask
    { title := ("T") } {} ("t9") d0 rfl rfl rfl
  exact h.1.mp (by decide)

/-- Fixture: a project with two listed members m1 and m2. -/
def wProject : Project :=
  { id := "p2", name := "Beta Board", key := "BET", members := ["m1", "m2"]
    createdBy := "a1", createdAt := d0, updatedAt := d0 }

/-- Fixture: a task of wProject assigned to m2. -/
def wTask : Task :=
  { id := "t2", projectId := "p2", title := "Write docs", description := none
    status := .in_progress, priority := .high, assignee := some "m2", dueDate := none
    createdBy := "a1", createdAt := d0, updatedAt := d0 }

/-- Fixture store for the update-permission claims. -/
def wStore : Store :=
  { users := [], projects := [wProject], tasks := [wTask] }

/-- C2: PATCH /tasks/:id. A caller with role member succeeds only when they
are the assignee of the task; a project member who is not the assignee
receives 403 with the store unchanged; an admin updates any existing
task. -/
theorem C2_update_member_assignee (s : Store) (id userId : Id)
    (dto : UpdateTaskDto) (now : Date) (task : Task)
    (ht : findTask s id = some task) :
    (∀ r s2, TasksService.update s id dto userId .member now = (.ok r, s2) →
      task.assignee = some userId)
    ∧ (∀ project, findProject s task.projectId = some project →
        project.members.contains userId = true → task.assignee ≠ some userId →
        TasksService.update s id dto userId .member now = (.error .forbidden, s))
    ∧ (∃ s2, TasksService.update s id dto userId .admin now
        = (.ok (TasksService.applyUpdate task dto now), s2)) := by
  refine ⟨?_, ?_, ?_⟩
  · intro r s2 hok
    by_contra hne
    simp only [TasksService.update, ht] at hok
    rcases hfp : findProject s task.projectId with _ | project <;>
      simp only [hfp] at hok
    · simp at hok
    · cases hm : project.members.contains userId <;> simp_all
  · intro project hfp hm hne
    simp only [TasksService.update, ht, hfp]
    simp_all
  · refine ⟨{ s with tasks := s.tasks.map (fun u => if u.id = id then TasksService.applyUpdate task dto now else u) }, ?_⟩
    simp only [TasksService.update, ht]
    simp

/-- Witness for C2_update_member_assignee: member m1 of project p2, who is
not the assignee of task t2, is denied the update. -/
theorem C2_update_member_assignee_witness :
    TasksService.update wStore ("t2") {} ("m1") .member d0
      = (.error .forbidden, wStore) := by
  have h := C2_update_member_assignee wStore ("t2") ("m1") {} d0 wTask rfl
  exact h.2.1 wProject rfl (by decide) (by decide)

/-- C3: deleting a task, deleting a project and adding members are refused
with 403 for every non-admin caller regardless of the target, leaving the
store unchanged; an admin succeeds whenever the target exists. -/
theorem C3_admin_only_ops (s : Store) (tid pid : Id) (uids : List Id)
    (role : UserRole) :
    (role ≠ .admin →
      TasksService.remove s tid role = (.error .forbidden, s)
      ∧ ProjectsService.remove s pid role = (.error .forbidden, s)
      ∧ ProjectsService.addMembers s pid uids role = (.error .forbidden, s))
    ∧ ((∃ t, findTask s tid = some t) →
        (TasksService.remove s tid .admin).1 = .ok ())
    ∧ ((∃ p, findProject s pid = some p) →
        (ProjectsService.remove s pid .admin).1 = .ok ())
    ∧ ((∃ p, findProject s pid = some p) →
        ∃ p2, (ProjectsService.addMembers s pid uids .admin).1 = .ok p2) := by
  refine ⟨?_, ?_, ?_, ?_⟩
  · intro hrole
    refine ⟨?_, ?_, ?_⟩ <;>
      simp [TasksService.remove, ProjectsService.remove,
        ProjectsService.addMembers, hrole]
  · rintro ⟨t, htf⟩
    simp [TasksService.remove, htf]
  · rintro ⟨p, hpf⟩
    simp [ProjectsService.remove, hpf]
  · rintro ⟨p, hpf⟩
    refine ⟨{ p with members := ProjectsService.addToSet p.members uids }, ?_⟩
    simp [ProjectsService.addMembers, hpf]

/-- Witness for C3_admin_only_ops: member role is refused task deletion in
the concrete store while an admin deletes the existing task t1. -/
theorem C3_admin_only_ops_witness :
    TasksService.remove cexStore ("t1") .member = (.error .forbidden, cexStore)
    ∧ (TasksService.remove cexStore ("t1") .admin).1 = .ok () := by
  have hm := C3_admin_only_ops cexStore ("t1") ("p1") [] .member
  have ha := C3_admin_only_ops cexStore ("t1") ("p1") [] .admin
  exact ⟨(hm.1 (by decide)).1, ha.2.1 ⟨cexTask, rfl⟩⟩

/-- C4: for a permitted task-list request the pagination object echoes the
requested page and limit (1 and 10 when absent), total is the number of
tasks matching the filter, pages is the ceiling of total/limit (witnessed
by the two-sided multiple bound), and the task slice is the window that
drops (page-1)*limit of the sorted matching tasks and holds at most limit
of them. -/
theorem C4_pagination (s : Store) (projectId userId : Id) (userRole : UserRole)
    (p : Project) (q : QueryTasksDto)
    (hp : findProject s projectId = some p)
    (hacc : SpecTaskAccess s p userId userRole)
    (hpage : ∀ n, q.page = some n → 0 < n)
    (hlimit : ∀ n, q.limit = some n → 0 < n) :
    ∃ r, TasksService.findAll s projectId q userId userRole = .ok r
      ∧ r.pagination.page = q.page.getD 1
      ∧ r.pagination.limit = q.limit.getD 10
      ∧ r.pagination.total = (s.tasks.filter (matchesFilter projectId q)).length
      ∧ r.pagination.pages = ceilDiv r.pagination.total r.pagination.limit
      ∧ r.pagination.total ≤ r.pagination.pages * r.pagination.limit
      ∧ r.pagination.pages * r.pagination.limit
          < r.pagination.total + r.pagination.limit
      ∧ r.tasks = ((sortByCreatedAtDesc
            (s.tasks.filter (matchesFilter projectId q))).drop
              ((r.pagination.page - 1) * r.pagination.limit)).take
                r.pagination.limit
      ∧ r.tasks.length ≤ r.pagination.limit := by
  have hpid : p.id = projectId := findProject_id hp
  subst hpid
  have hguard : ¬ (userRole ≠ UserRole.admin
      ∧ p.members.contains userId = false
      ∧ hasTasksInProject s p.id userId = false) :=
    fun hg => (access_guard_iff s p userId userRole).mp hg hacc
  have hok : TasksService.findAll s p.id q userId userRole =
      .ok { tasks := ((sortByCreatedAtDesc (s.tasks.filter (matchesFilter p.id q))).drop ((parseIntOr 1 q.page - 1) * parseIntOr 10 q.limit)).take (parseIntOr 10 q.limit)
            pagination :=
              { page := parseIntOr 1 q.page
                limit := parseIntOr 10 q.limit
                total := (s.tasks.filter (matchesFilter p.id q)).length
                pages := ceilDiv (s.tasks.filter (matchesFilter p.id q)).length (parseIntOr 10 q.limit) } } := by
    simp only [TasksService.findAll, hp]
    rw [if_neg hguard]
  refine ⟨_, hok, ?_, ?_, ?_, ?_, ?_, ?_, ?_, ?_⟩
  · exact parseIntOr_pos 1 q.page hpage
  · exact parseIntOr_pos 10 q.limit hlimit
  · rfl
  · rfl
  · exact (ceilDiv_bounds _ _ (parseIntOr_pos_of (by omega) q.limit)).1
  · exact (ceilDiv_bounds _ _ (parseIntOr_pos_of (by omega) q.limit)).2
  · rfl
  · simp only [List.length_take]
    exact min_le_left _ _

/-- Witness for C4_pagination: admin lists the single task of project p1
with default pagination. -/
theorem C4_pagination_witness :
    ∃ r, TasksService.findAll cexStore ("p1") {} ("a1") .admin = .ok r
      ∧ r.pagination.page = 1 ∧ r.pagination.limit = 10
      ∧ r.pagination.total = 1 ∧ r.pagination.pages = 1 := by
  obtain ⟨r, h1, h2, h3, h4, h5, -⟩ :=
    C4_pagination cexStore ("p1") ("a1") .admin cexProject {} rfl
      (Or.inl rfl) (fun n hn => by simp at hn) (fun n hn => by simp at hn)
  exact ⟨r, h1, h2, h3, by simpa using h4, by rw [h5, h4, h3]; rfl⟩

/-- C5: a permitted CSV export renders one data row per task of the
project, with no dependence on any query filter: the line list is the
header followed by exactly the createdAt-sorted tasks whose projectId is
the exported project, so its length is the task count of the project plus
one. -/
theorem C5_export_row_count (s : Store) (projectId userId : Id)
    (userRole : UserRole) (p : Project) (now : Date)
    (hp : findProject s projectId = some p)
    (hacc : SpecTaskAccess s p userId userRole) :
    ∃ r, TasksService.exportToCsv s projectId userId userRole now = .ok r
      ∧ r.body = String.intercalate ("\n") (csvLines s projectId)
      ∧ csvLines s projectId
          = csvHeader ::
              (sortByCreatedAtDesc
                (s.tasks.filter (fun t => t.projectId == projectId))).map (csvRow s)
      ∧ (csvLines s projectId).length
          = (s.tasks.filter (fun t => t.projectId == projectId)).length + 1 := by
  have hpid : p.id = projectId := findProject_id hp
  subst hpid
  have hguard : ¬ (userRole ≠ UserRole.admin
      ∧ p.members.contains userId = false
      ∧ hasTasksInProject s p.id userId = false) :=
    fun hg => (access_guard_iff s p userId userRole).mp hg hacc
  have hok : TasksService.exportToCsv s p.id userId userRole now =
      .ok { contentType := ("text/csv")
            contentDisposition := ("attachment; filename=\"") ++ csvFilename p.name now ++ ("\"")
            body := String.intercalate ("\n") (csvLines s p.id) } := by
    simp only [TasksService.exportToCsv, hp]
    rw [if_neg hguard]
  refine ⟨_, hok, ?_, ?_, ?_⟩
  · rfl
  · rfl
  · simp [csvLines, length_sortByCreatedAtDesc]

/-- Witness for C5_export_row_count: admin exports project p1, which has
one task, so the CSV has two lines. -/
theorem C5_export_row_count_witness :
    ∃ r, TasksService.exportToCsv cexStore ("p1") ("a1") .admin d0 = .ok r
      ∧ (csvLines cexStore ("p1")).length = 2 := by
  obtain ⟨r, h1, -, -, h4⟩ :=
    C5_export_row_count cexStore ("p1") ("a1") .admin cexProject d0 rfl (Or.inl rfl)
  exact ⟨r, h1, by simpa using h4⟩

/-- C6: a permitted CSV export responds with Content-Type text/csv and a
Content-Disposition attachment header; the body is the fixed header line
followed by one row per task, each row being exactly the eleven
double-quoted comma-separated fields in the fixed column order, with the
empty string standing in for a missing description, assignee, assignee
email, or due date. -/
theorem C6_csv_format (s : Store) (projectId userId : Id) (userRole : UserRole)
    (p : Project) (now : Date)
    (hp : findProject s projectId = some p)
    (hacc : SpecTaskAccess s p userId userRole) :
    ∃ r, TasksService.exportToCsv s projectId userId userRole now = .ok r
      ∧ r.contentType = ("text/csv")
      ∧ (∃ fn, r.contentDisposition = ("attachment; filename=\"") ++ fn ++ ("\""))
      ∧ r.body = String.intercalate ("\n")
          (csvHeader ::
            (sortByCreatedAtDesc
              (s.tasks.filter (fun t => t.projectId == projectId))).map (csvRow s))
      ∧ csvHeader = ("ID,Title,Description,Status,Priority,Assignee,Assignee Email,Due Date,Created By,Created At,Updated At")
      ∧ (∀ t, csvRow s t = String.intercalate (",") ((csvFields s t).map quoteField))
      ∧ (∀ t, (csvFields s t).length = 11)
      ∧ (∀ t, t.description = none → t.assignee = none → t.dueDate = none →
          csvFields s t
            = [t.id, t.title, (""), t.status.str, t.priority.str, (""), (""), ("")
              , ((findUser s t.createdBy).map User.name).getD ("")
              , t.createdAt, t.updatedAt]) := by
  have hpid : p.id = projectId := findProject_id hp
  subst hpid
  have hguard : ¬ (userRole ≠ UserRole.admin
      ∧ p.members.contains userId = false
      ∧ hasTasksInProject s p.id userId = false) :=
    fun hg => (access_guard_iff s p userId userRole).mp hg hacc
  have hok : TasksService.exportToCsv s p.id userId userRole now =
      .ok { contentType := ("text/csv")
            contentDisposition := ("attachment; filename=\"") ++ csvFilename p.name now ++ ("\"")
            body := String.intercalate ("\n") (csvLines s p.id) } := by
    simp only [TasksService.exportToCsv, hp]
    rw [if_neg hguard]
  refine ⟨_, hok, rfl, ⟨csvFilename p.name now, rfl⟩, rfl, rfl, fun t => rfl,
    fun t => rfl, ?_⟩
  intro t hd ha hdd
  simp [csvFields, hd, ha, hdd]

/-- Witness for C6_csv_format: admin exports project p1 and receives the
text/csv content type. -/
theorem C6_csv_format_witness :
    ∃ r, TasksService.exportToCsv cexStore ("p1") ("a1") .admin d0 = .ok r
      ∧ r.contentType = ("text/csv") := by
  obtain ⟨r, h1, h2, -⟩ :=
    C6_csv_format cexStore ("p1") ("a1") .admin cexProject d0 rfl (Or.inl rfl)
  exact ⟨r, h1, h2⟩

/-- C7: an admin deleting an existing project removes only that project
document: the task list (and user list) of the store is exactly what it was
before the call, so tasks whose projectId references the deleted project
remain in the store. -/
theorem C7_delete_no_cascade (s : Store) (projectId : Id) (p : Project)
    (hp : findProject s projectId = some p) :
    (ProjectsService.remove s projectId .admin).1 = .ok ()
    ∧ ((ProjectsService.remove s projectId .admin).2).tasks = s.tasks
    ∧ ((ProjectsService.remove s projectId .admin).2).users = s.users
    ∧ ((ProjectsService.remove s projectId .admin).2).projects
        = erasedById (fun q => q.id == projectId) s.projects
    ∧ (∀ t ∈ s.tasks, t.projectId = projectId →
        t ∈ ((ProjectsService.remove s projectId .admin).2).tasks) := by
  have h : ProjectsService.remove s projectId .admin
      = (.ok (), { s with projects := erasedById (fun q => q.id == projectId) s.projects }) := by
    simp [ProjectsService.remove, hp]
  rw [h]
  exact ⟨rfl, rfl, rfl, rfl, fun t ht _ => ht⟩

/-- Witness for C7_delete_no_cascade: deleting project p1 leaves its task
t1 in the store. -/
theorem C7_delete_no_cascade_witness :
    (ProjectsService.remove cexStore ("p1") .admin).1 = .ok ()
    ∧ ((ProjectsService.remove cexStore ("p1") .admin).2).tasks = cexStore.tasks := by
  have h := C7_delete_no_cascade cexStore ("p1") cexProject rfl
  exact ⟨h.1, h.2.1⟩

/-- Fixture: a store with no documents at all. -/
def emptyStore : Store :=
  { users := [], projects := [], tasks := [] }

/-- C8 counterexample: task t1 does not exist, yet a member calling
DELETE /tasks/:id receives 403, not the claimed 404: TasksService.remove
checks the role before looking the task up. -/
theorem C8_counterexample :
    findTask emptyStore ("t1") = none
    ∧ (TasksService.remove emptyStore ("t1") .member).1 = .error .forbidden := by
  constructor <;> rfl

/-- C8 (amended): requests naming a missing project or task fail with 404
on the read, create, list, summary, export and update operations for every
role; but the admin-only operations (delete task, delete project, add
members) check the role first, so a non-admin caller receives 403 even when
the target is missing, and only an admin receives 404 there. -/
theorem C8_notfound_amended (s : Store) (pid tid uid : Id) (role : UserRole)
    (dto : CreateTaskDto) (udto : UpdateTaskDto) (q : QueryTasksDto)
    (newId : Id) (now : Date) (uids : List Id)
    (hp : findProject s pid = none) (ht : findTask s tid = none) :
    TasksService.create s pid dto uid role newId now = (.error .notFound, s)
    ∧ TasksService.findAll s pid q uid role = .error .notFound
    ∧ TasksService.getProjectSummary s pid uid role now = .error .notFound
    ∧ TasksService.exportToCsv s pid uid role now = .error .notFound
    ∧ ProjectsService.findOne s pid uid role = .error .notFound
    ∧ TasksService.findOne s tid uid role = .error .notFound
    ∧ TasksService.update s tid udto uid role now = (.error .notFound, s)
    ∧ TasksService.remove s tid role
        = ((if role = .admin then .error .notFound else .error .forbidden), s)
    ∧ ProjectsService.remove s pid role
        = ((if role = .admin then .error .notFound else .error .forbidden), s)
    ∧ ProjectsService.addMembers s pid uids role
        = ((if role = .admin then .error .notFound else .error .forbidden), s) := by
  cases role <;>
    simp [TasksService.create, TasksService.findAll, TasksService.getProjectSummary,
      TasksService.exportToCsv, ProjectsService.findOne, TasksService.findOne,
      TasksService.update, TasksService.remove, ProjectsService.remove,
      ProjectsService.addMembers, hp, ht]

/-- Witness for C8_notfound_amended: in the empty store a member reading a
missing task gets 404 while a member deleting it gets 403. -/
theorem C8_notfound_amended_witness :
    TasksService.findOne emptyStore ("t1") ("u1") .member = .error .notFound
    ∧ TasksService.remove emptyStore ("t1") .member
        = (.error .forbidden, emptyStore) := by
  have h := C8_notfound_amended emptyStore ("p1") ("t1") ("u1") .member
    { title := ("T") } {} {} ("t9") d0 [] rfl rfl
  refine ⟨h.2.2.2.2.2.1, ?_⟩
  rw [h.2.2.2.2.2.2.2.1]
  rfl

/-- Math.round((done / total) * 100) computed by roundRate agrees with the
exact rational rounding round(100 * done / total). -/
theorem roundRate_eq_round (dn tn : Nat) (ht : 0 < tn) :
    (roundRate dn tn : ℤ) = round ((100 * (dn : ℚ)) / (tn : ℚ)) := by
  have htq : (tn : ℚ) ≠ 0 := Nat.cast_ne_zero.mpr (by omega)
  rw [round_eq]
  have hx : (100 * (dn : ℚ)) / (tn : ℚ) + 1 / 2
      = (((200 * dn + tn : ℕ) : ℤ) : ℚ) / ((2 * tn : ℕ) : ℚ) := by
    push_cast
    field_simp
    ring
  rw [hx, Rat.floor_intCast_div_natCast]
  unfold roundRate
  exact Int.ofNat_div _ _

/-- C9: a permitted project summary reports total, todo, inProgress, done
and overdue as the counts of the project's tasks under the corresponding
status and due-date predicates, and completionRate is round(100*done/total)
when total is positive and 0 when total is zero (the division is guarded
and never evaluated at zero). -/
theorem C9_summary_kpis (s : Store) (projectId userId : Id)
    (userRole : UserRole) (p : Project) (now : Date)
    (hp : findProject s projectId = some p)
    (hacc : userRole = .admin ∨ p.members.contains userId = true) :
    ∃ sm, TasksService.getProjectSummary s projectId userId userRole now = .ok sm
      ∧ sm.total = (s.tasks.filter (fun t => t.projectId == projectId)).length
      ∧ sm.todo = (s.tasks.filter
          (fun t => t.projectId == projectId && t.status == TaskStatus.todo)).length
      ∧ sm.inProgress = (s.tasks.filter
          (fun t => t.projectId == projectId
            && t.status == TaskStatus.in_progress)).length
      ∧ sm.done = (s.tasks.filter
          (fun t => t.projectId == projectId && t.status == TaskStatus.done)).length
      ∧ sm.overdue = (s.tasks.filter
          (fun t => t.projectId == projectId
            && (match t.dueDate with
                | none => false
                | some d => decide (d < now))
            && t.status != TaskStatus.done)).length
      ∧ (sm.total = 0 → sm.completionRate = 0)
      ∧ (0 < sm.total →
          (sm.completionRate : ℤ) = round ((100 * (sm.done : ℚ)) / (sm.total : ℚ))) := by
  have hguard : ¬ (userRole ≠ UserRole.admin ∧ p.members.contains userId = false) := by
    rcases hacc with h | h
    · exact fun hg => hg.1 h
    · exact fun hg => by rw [h] at hg; exact absurd hg.2 (by simp)
  have hok : TasksService.getProjectSummary s projectId userId userRole now =
      .ok { total := (s.tasks.filter (fun t => t.projectId == projectId)).length
            todo := (s.tasks.filter (fun t => t.projectId == projectId && t.status == TaskStatus.todo)).length
            inProgress := (s.tasks.filter (fun t => t.projectId == projectId && t.status == TaskStatus.in_progress)).length
            done := (s.tasks.filter (fun t => t.projectId == projectId && t.status == TaskStatus.done)).length
            overdue := (s.tasks.filter (fun t => t.projectId == projectId && (match t.dueDate with | none => false | some d => decide (d < now)) && t.status != TaskStatus.done)).length
            completionRate :=
              if 0 < (s.tasks.filter (fun t => t.projectId == projectId)).length
              then roundRate (s.tasks.filter (fun t => t.projectId == projectId && t.status == TaskStatus.done)).length (s.tasks.filter (fun t => t.projectId == projectId)).length
              else 0 } := by
    simp only [TasksService.getProjectSummary, hp]
    rw [if_neg hguard]
  refine ⟨_, hok, rfl, rfl, rfl, rfl, rfl, ?_, ?_⟩
  · intro hz
    have hz2 : (s.tasks.filter (fun t => t.projectId == projectId)).length = 0 := hz
    dsimp only
    rw [if_neg (by omega)]
  · intro hpos
    have hpos2 : 0 < (s.tasks.filter (fun t => t.projectId == projectId)).length := hpos
    dsimp only
    rw [if_pos hpos2]
    exact roundRate_eq_round _ _ hpos2

/-- Witness for C9_summary_kpis: the summary of project p1 counts its one
todo task. -/
theorem C9_summary_kpis_witness :
    ∃ sm, TasksService.getProjectSummary cexStore ("p1") ("a1") .admin d0 = .ok sm
      ∧ sm.total = 1 ∧ sm.todo = 1 := by
  obtain ⟨sm, h1, h2, h3, -⟩ :=
    C9_summary_kpis cexStore ("p1") ("a1") .admin cexProject d0 rfl (Or.inl rfl)
  exact ⟨sm, h1, by rw [h2]; rfl, by rw [h3]; rfl⟩

/-- C10: a successful PATCH /tasks/:id writes exactly the merged document;
an absent or empty assignee (or dueDate) in the request leaves the stored
assignee (dueDate) unchanged, and no update can turn a set assignee or due
date back into an unset one. -/
theorem C10_update_preserves (s : Store) (id : Id) (dto : UpdateTaskDto)
    (userId : Id) (userRole : UserRole) (now : Date) (task t2 : Task) (s2 : Store)
    (ht : findTask s id = some task)
    (hok : TasksService.update s id dto userId userRole now = (.ok t2, s2)) :
    t2 = TasksService.applyUpdate task dto now
    ∧ (strTruthy dto.assignee = false → t2.assignee = task.assignee)
    ∧ (strTruthy dto.dueDate = false → t2.dueDate = task.dueDate)
    ∧ (t2.assignee = none → task.assignee = none)
    ∧ (t2.dueDate = none → task.dueDate = none) := by
  have h2 : t2 = TasksService.applyUpdate task dto now := by
    simp only [TasksService.update, ht] at hok
    rcases userRole with _ | _
    · simp at hok
      exact hok.1.symm
    · rw [if_neg (by simp : ¬ (UserRole.member = UserRole.admin))] at hok
      rcases hfp : findProject s task.projectId with _ | project <;>
        simp only [hfp] at hok
      · simp at hok
      · by_cases hm : project.members.contains userId = false
        · rw [if_pos hm] at hok
          simp at hok
        · rw [if_neg hm] at hok
          by_cases ha : task.assignee ≠ some userId
          · rw [if_pos ha] at hok
            simp at hok
          · rw [if_neg ha] at hok
            simp at hok
            exact hok.1.symm
  subst h2
  refine ⟨rfl, ?_, ?_, ?_, ?_⟩
  · intro hfa
    simp [TasksService.applyUpdate, hfa]
  · intro hfd
    simp [TasksService.applyUpdate, hfd]
  · intro hnone
    by_cases hta : strTruthy dto.assignee
    · simp only [TasksService.applyUpdate, hta, if_pos] at hnone
      rw [hnone] at hta
      simp [strTruthy] at hta
    · simpa [TasksService.applyUpdate, hta] using hnone
  · intro hnone
    by_cases htd : strTruthy dto.dueDate
    · simp only [TasksService.applyUpdate, htd, if_pos] at hnone
      rw [hnone] at htd
      simp [strTruthy] at htd
    · simpa [TasksService.applyUpdate, htd] using hnone

/-- Witness for C10_update_preserves: an admin update of task t1 with an
empty DTO stores the task unchanged and keeps its assignee. -/
theorem C10_update_preserves_witness :
    cexTask = TasksService.applyUpdate cexTask {} d0
    ∧ (TasksService.applyUpdate cexTask {} d0).assignee = cexTask.assignee := by
  have h := C10_update_preserves cexStore ("t1") {} ("a1") .admin d0 cexTask
    cexTask cexStore rfl rfl
  exact ⟨h.1, h.2.1 rfl⟩

end MiniKanban
